import Mathlib

/-!
Shallow embedding of the real-time streaming session manager of the
ZhiYuAI repository (services/voice-interaction/main.py,
services/scene-recognition/main.py, shared/ai_clients.py), together with
proofs of the behavioural claims about it.

Bytes are modelled as `List Nat` (each entry a value below 256 where it
matters), machine integers as `Nat`/`Int`, fallible calls as `Except`,
and the callback-driven recognizer bridge as a step function over an
explicit state threaded through the list of engine callbacks.
-/

namespace ZhiYuAI

/-- Characters removed by Python str.strip() on the ASCII fragment
(space, tab, newline, carriage return, vertical tab, form feed).  The
strings handled by the services in the claims are ASCII or contain no
edge whitespace, so this fragment is faithful. -/
def isPySpace (c : Char) : Bool :=
  c = ' ' || c = '\t' || c = '\n' || c = '\r' || c = '\x0b' || c = '\x0c'

/-- Embedding of Python str.strip(): drop leading and trailing whitespace. -/
def pyStrip (s : String) : String :=
  String.mk ((((s.data.dropWhile isPySpace).reverse).dropWhile isPySpace).reverse)

/-- Embedding of " ".join(segments). -/
def joinSp (segs : List String) : String :=
  String.intercalate " " segs

/-! ## Recognition event bridge: scene-recognition service

`_StreamingASRCallback` in services/scene-recognition/main.py keeps a
list of transcript segments and an `_ended` flag; each engine callback
enqueues zero or more payloads (`_emit`) into the session's asyncio
queue, `None` being the terminal marker enqueued by `_finish`. -/

/-- Queue payloads produced by `_StreamingASRCallback` (the JSON dicts it
enqueues). -/
inductive ScenePayload where
  | ready : ScenePayload
  | transcript (text : String) : ScenePayload
  | error (message : String) : ScenePayload
  | done (transcripts : List String) : ScenePayload
  deriving DecidableEq, Repr

/-- Engine callback invocations received by `_StreamingASRCallback`.
`event` carries the (optional) transcription text of
`transcription_result.text`; the scene callback ignores the translation
result entirely. -/
inductive SceneCb where
  | onOpen : SceneCb
  | onEvent (transcription : Option String) : SceneCb
  | onError (message : Option String) : SceneCb
  | onComplete : SceneCb
  | onClose : SceneCb
  deriving DecidableEq, Repr

/-- Mutable state of `_StreamingASRCallback`: `_segments` and `_ended`. -/
structure SceneCbState where
  segments : List String
  ended : Bool
  deriving DecidableEq, Repr

/-- Initial callback state (constructor of `_StreamingASRCallback`). -/
def SceneCbState.start : SceneCbState := ⟨[], false⟩

/-- Embedding of `_StreamingASRCallback._finish`: enqueue the terminal
`None` marker unless `_ended` is already set. -/
def sceneFinish (st : SceneCbState) : SceneCbState × List (Option ScenePayload) :=
  if st.ended then (st, []) else ({ st with ended := true }, [none])

/-- One engine callback processed by `_StreamingASRCallback`, returning
the new state and the queue payloads enqueued (in order). -/
def sceneCbStep (st : SceneCbState) : SceneCb → SceneCbState × List (Option ScenePayload)
  | .onOpen => (st, [some .ready])
  | .onEvent transcription =>
      -- on_event: text = (transcription_result.text or "").strip();
      -- if text: append and re-announce the full aggregated string.
      let text := pyStrip (transcription.getD "")
      if text = "" then (st, [])
      else
        let segs := st.segments ++ [text]
        ({ st with segments := segs }, [some (.transcript (pyStrip (joinSp segs)))])
  | .onError message =>
      -- on_error: emit {"type":"error", ...} then _finish().
      let msg := if (message.getD "") = "" then "asr error" else message.getD ""
      let (st', outs) := sceneFinish st
      (st', some (.error msg) :: outs)
  | .onComplete =>
      -- on_complete: emit {"type":"done","data":{...}} then _finish().
      let (st', outs) := sceneFinish st
      (st', some (.done st.segments) :: outs)
  | .onClose => sceneFinish st

/-- Run a whole sequence of engine callbacks through
`_StreamingASRCallback`, collecting the enqueued payloads in order. -/
def sceneCbRun (st : SceneCbState) : List SceneCb → SceneCbState × List (Option ScenePayload)
  | [] => (st, [])
  | cb :: cbs =>
      let (st', outs) := sceneCbStep st cb
      let (st'', rest) := sceneCbRun st' cbs
      (st'', outs ++ rest)

/-- A callback invocation that triggers `_finish` (terminates the
engine's behaviour): `on_error`, `on_complete` or `on_close`. -/
def SceneCb.isTerminal : SceneCb → Bool
  | .onError _ => true
  | .onComplete => true
  | .onClose => true
  | _ => false

/-! ## Recognition event bridge: voice-interaction service

`StreamingRecognizerCallback` in services/voice-interaction/main.py also
tracks a per-language translation map and a request id; its `_finish`
takes an optional payload to enqueue before the terminal marker. -/

/-- Queue payloads produced by `StreamingRecognizerCallback`. -/
inductive VoicePayload where
  | ready : VoicePayload
  | transcript (text : String) : VoicePayload
  | translation (language : String) (text : String) : VoicePayload
  | error (message : String) : VoicePayload
  | done (requestId : Option String) (transcripts : List String)
      (translations : List (String × String)) : VoicePayload
  deriving DecidableEq, Repr

/-- Engine callback invocations received by `StreamingRecognizerCallback`.
`onEvent` carries the optional request id, the optional transcription
text, and the translation result as a list of (language, text) pairs in
`get_language_list()` order (an empty text models a falsy
`translation.text`). -/
inductive VoiceCb where
  | onOpen : VoiceCb
  | onEvent (requestId : Option String) (transcription : Option String)
      (translations : List (String × String)) : VoiceCb
  | onError (message : Option String) : VoiceCb
  | onComplete : VoiceCb
  | onClose : VoiceCb
  deriving DecidableEq, Repr

/-- Mutable state of `StreamingRecognizerCallback`. -/
structure VoiceCbState where
  transcripts : List String
  translationMap : List (String × String)
  requestId : Option String
  ended : Bool
  deriving DecidableEq, Repr

/-- Initial state (constructor of `StreamingRecognizerCallback`). -/
def VoiceCbState.start : VoiceCbState := ⟨[], [], none, false⟩

/-- Insertion-ordered dict update, matching Python dict assignment
`self._translation_map[language] = text`. -/
def dictUpdate (m : List (String × String)) (k v : String) : List (String × String) :=
  if m.any (fun p => p.1 = k) then
    m.map (fun p => if p.1 = k then (k, v) else p)
  else m ++ [(k, v)]

/-- Embedding of `StreamingRecognizerCallback._finish(payload)`. -/
def voiceFinish (st : VoiceCbState) (payload : Option VoicePayload) :
    VoiceCbState × List (Option VoicePayload) :=
  let pre : List (Option VoicePayload) := match payload with
    | some p => [some p]
    | none => []
  if st.ended then (st, pre) else ({ st with ended := true }, pre ++ [none])

/-- Embedding of one translation-result entry of `on_event`: update the
map and emit an incremental event when the text is non-falsy. -/
def voiceTranslationStep (st : VoiceCbState) (p : String × String) :
    VoiceCbState × List (Option VoicePayload) :=
  if p.2 = "" then (st, [])
  else ({ st with translationMap := dictUpdate st.translationMap p.1 p.2 },
        [some (.translation p.1 p.2)])

/-- Fold `voiceTranslationStep` over the language list of one `on_event`. -/
def voiceTranslationsRun (st : VoiceCbState) :
    List (String × String) → VoiceCbState × List (Option VoicePayload)
  | [] => (st, [])
  | p :: ps =>
      let (st', outs) := voiceTranslationStep st p
      let (st'', rest) := voiceTranslationsRun st' ps
      (st'', outs ++ rest)

/-- One engine callback processed by `StreamingRecognizerCallback`. -/
def voiceCbStep (st : VoiceCbState) : VoiceCb → VoiceCbState × List (Option VoicePayload)
  | .onOpen => (st, [some .ready])
  | .onEvent requestId transcription translations =>
      let st₁ := if (requestId.getD "") = "" then st
        else { st with requestId := requestId }
      let text := pyStrip (transcription.getD "")
      let (st₂, outs₂) :=
        if text = "" then (st₁, ([] : List (Option VoicePayload)))
        else
          let segs := st₁.transcripts ++ [text]
          ({ st₁ with transcripts := segs },
           [some (.transcript (pyStrip (joinSp segs)))])
      let (st₃, outs₃) := voiceTranslationsRun st₂ translations
      (st₃, outs₂ ++ outs₃)
  | .onError message =>
      -- on_error → finish_with_error(str(message or "...")).
      let msg := if (message.getD "") = "" then "translation recognizer error"
        else message.getD ""
      voiceFinish st (some (.error msg))
  | .onComplete =>
      voiceFinish st (some (.done st.requestId st.transcripts st.translationMap))
  | .onClose =>
      -- on_close → ensure_finished(): _finish() only when not ended.
      if st.ended then (st, []) else voiceFinish st none

/-- Run a sequence of engine callbacks through `StreamingRecognizerCallback`. -/
def voiceCbRun (st : VoiceCbState) : List VoiceCb → VoiceCbState × List (Option VoicePayload)
  | [] => (st, [])
  | cb :: cbs =>
      let (st', outs) := voiceCbStep st cb
      let (st'', rest) := voiceCbRun st' cbs
      (st'', outs ++ rest)

/-- A voice callback invocation that triggers the terminal path. -/
def VoiceCb.isTerminal : VoiceCb → Bool
  | .onError _ => true
  | .onComplete => true
  | .onClose => true
  | _ => false

/-- Number of terminal `None` markers in a queue-payload list. -/
def noneCount {α : Type} (outs : List (Option α)) : Nat :=
  (outs.filter fun o => o.isNone).length

/-! ## Transcript aggregation (claim C3) -/

/-- The non-empty stripped transcription fragment carried by one scene
engine callback, if any (the `if text:` guard of `on_event`). -/
def sceneFragment : SceneCb → Option String
  | .onEvent t =>
      let s := pyStrip (t.getD "")
      if s = "" then none else some s
  | _ => none

/-- All transcription fragments accepted over a callback sequence. -/
def sceneFragments (cbs : List SceneCb) : List String :=
  cbs.filterMap sceneFragment

/-- Texts of the transcript events in a scene queue-payload list. -/
def transcriptTextsS (outs : List (Option ScenePayload)) : List String :=
  outs.filterMap fun o => match o with
    | some (ScenePayload.transcript t) => some t
    | _ => none

/-- Expected aggregated announcements: starting from already-collected
segments, each new fragment is appended and the full space-joined string
is re-announced. -/
def aggregatesFrom (segs : List String) : List String → List String
  | [] => []
  | f :: fs => pyStrip (joinSp (segs ++ [f])) :: aggregatesFrom (segs ++ [f]) fs

/-- The non-empty stripped transcription fragment carried by one voice
engine callback, if any. -/
def voiceFragment : VoiceCb → Option String
  | .onEvent _ t _ =>
      let s := pyStrip (t.getD "")
      if s = "" then none else some s
  | _ => none

/-- All transcription fragments accepted over a voice callback sequence. -/
def voiceFragments (cbs : List VoiceCb) : List String :=
  cbs.filterMap voiceFragment

/-- Texts of the transcript events in a voice queue-payload list. -/
def transcriptTextsV (outs : List (Option VoicePayload)) : List String :=
  outs.filterMap fun o => match o with
    | some (VoicePayload.transcript t) => some t
    | _ => none

/-! ## Session receive loops (claims C2, C4, C5)

`dialogue_live` (scene-recognition) and `voice_translate_live`
(voice-interaction) both run a websocket receive loop over binary audio
frames, JSON control messages and disconnects.  The loops are modelled
as functions over the list of inbound messages; `none` as a result means
the loop never reached an exit (the real coroutine would still be
awaiting input). -/

/-- Result of analyzing one camera frame (`_analyze_scene_from_url`):
a JSON object whose `summary` field is the only one the session code
inspects; the remaining fields are carried opaquely. -/
structure Scene where
  summary : String
  rest : List (String × String)
  deriving DecidableEq, Repr

/-- Parsed inbound text (JSON) control messages. `invalid` stands for
unparsable JSON or an unrecognized type, which both loops ignore. -/
inductive TextCtl where
  | stop : TextCtl
  | frame (imageUrl : Option String) (imageB64 : Option String) : TextCtl
  | invalid : TextCtl
  deriving DecidableEq, Repr

/-- One inbound websocket message. -/
inductive InMsg where
  | audio (chunk : List Nat) : InMsg
  | text (ctl : TextCtl) : InMsg
  | disconnect : InMsg
  deriving DecidableEq, Repr

/-- Wire events the scene-dialogue session sends to the client. -/
inductive SceneWire where
  | ready : SceneWire
  | transcript (text : String) : SceneWire
  | scene (s : Scene) : SceneWire
  | assistantText (text : String) : SceneWire
  | assistantAudio (audio : List Nat) (format : String) : SceneWire
  | error (message : String) : SceneWire
  | done : SceneWire
  deriving DecidableEq, Repr

/-- Loop-local state of `dialogue_live`: `last_image_url`,
`current_scene`, `total_bytes`, `stopped`. -/
structure SceneLoopState where
  lastImageUrl : Option String
  currentScene : Option Scene
  totalBytes : Nat
  stopped : Bool
  deriving DecidableEq, Repr

/-- State at `dialogue_live` loop entry. -/
def SceneLoopState.init : SceneLoopState := ⟨none, none, 0, false⟩

/-- What happened by the time the `dialogue_live` receive loop exited:
events the loop itself sent, audio chunks forwarded to the recognizer,
number of `_analyze_scene_from_url` calls, number of `recognizer.stop`
calls made inside the loop, and the final loop state. -/
structure SceneLoopExit where
  sends : List SceneWire
  forwarded : List (List Nat)
  analyzeCalls : Nat
  stopCalls : Nat
  final : SceneLoopState
  deriving DecidableEq, Repr

/-- Embedding of the `dialogue_live` receive loop (the `while True` over
`websocket.receive()`), parameterized by the external vision engine
`analyze`.  Oversized audio sends an error and breaks; a `stop` control
message invokes `recognizer.stop` and sets `stopped` but — unlike the
voice service — does not break the loop; identical repeated image
references are skipped without any send. -/
def sceneLoop (maxBytes : Nat) (analyze : String → Except String Scene)
    (st : SceneLoopState) : List InMsg → Option SceneLoopExit
  | [] => none
  | msg :: msgs =>
    match msg with
    | .audio chunk =>
        if chunk = [] then sceneLoop maxBytes analyze st msgs
        else
          let t := st.totalBytes + chunk.length
          if t > maxBytes then
            some { sends := [.error "音频流超过大小限制"], forwarded := [],
                   analyzeCalls := 0, stopCalls := 0,
                   final := { st with totalBytes := t } }
          else
            (sceneLoop maxBytes analyze { st with totalBytes := t } msgs).map
              fun e => { e with forwarded := chunk :: e.forwarded }
    | .text .stop =>
        (sceneLoop maxBytes analyze { st with stopped := true } msgs).map
          fun e => { e with stopCalls := e.stopCalls + 1 }
    | .text (.frame url b64) =>
        let effUrl :=
          if (url.getD "") ≠ "" then url
          else if (b64.getD "") ≠ "" then
            some ("data:image/jpeg;base64," ++ b64.getD "")
          else none
        match effUrl with
        | none => sceneLoop maxBytes analyze st msgs
        | some u =>
            if some u = st.lastImageUrl then sceneLoop maxBytes analyze st msgs
            else
              match analyze u with
              | .ok s =>
                  (sceneLoop maxBytes analyze
                      { st with currentScene := some s, lastImageUrl := some u }
                      msgs).map
                    fun e =>
                      { e with
                        sends := SceneWire.scene s :: e.sends,
                        analyzeCalls := e.analyzeCalls + 1 }
              | .error exc =>
                  (sceneLoop maxBytes analyze st msgs).map
                    fun e =>
                      { e with
                        sends := SceneWire.error ("场景识别失败: " ++ exc) :: e.sends,
                        analyzeCalls := e.analyzeCalls + 1 }
    | .text .invalid => sceneLoop maxBytes analyze st msgs
    | .disconnect =>
        some { sends := [], forwarded := [], analyzeCalls := 0, stopCalls := 0,
               final := st }

/-- Total number of `recognizer.stop` invocations of a `dialogue_live`
session, counting the `finally` block (`if not stopped: recognizer.stop()`). -/
def sceneStops (maxBytes : Nat) (analyze : String → Except String Scene)
    (msgs : List InMsg) : Option Nat :=
  (sceneLoop maxBytes analyze SceneLoopState.init msgs).map
    fun e => e.stopCalls + (if e.final.stopped then 0 else 1)

/-- What happened by the time the `voice_translate_live` receive loop
exited: chunks forwarded to the recognizer, stop calls inside the loop,
the `stopped` flag, and whether the oversized-stream error path fired. -/
structure VoiceLoopExit where
  forwarded : List (List Nat)
  stopCalls : Nat
  stopped : Bool
  errored : Bool
  deriving DecidableEq, Repr

/-- Embedding of the `voice_translate_live` receive loop.  Oversized
audio triggers `callback.finish_with_error` and breaks; a `stop` control
message invokes `recognizer.stop`, sets `stopped` and breaks; other text
messages are ignored. -/
def voiceLoop (maxBytes : Nat) (total : Nat) : List InMsg → Option VoiceLoopExit
  | [] => none
  | msg :: msgs =>
    match msg with
    | .audio chunk =>
        if chunk = [] then voiceLoop maxBytes total msgs
        else
          let t := total + chunk.length
          if t > maxBytes then some ⟨[], 0, false, true⟩
          else
            (voiceLoop maxBytes t msgs).map
              fun e => { e with forwarded := chunk :: e.forwarded }
    | .text .stop => some ⟨[], 1, true, false⟩
    | .text _ => voiceLoop maxBytes total msgs
    | .disconnect => some ⟨[], 0, false, false⟩

/-- Total number of `recognizer.stop` invocations of a
`voice_translate_live` session, counting the `finally` block. -/
def voiceStops (maxBytes : Nat) (msgs : List InMsg) : Option Nat :=
  (voiceLoop maxBytes 0 msgs).map
    fun e => e.stopCalls + (if e.stopped then 0 else 1)

/-- Cumulative byte count of a list of audio frames. -/
def sumLens (frames : List (List Nat)) : Nat :=
  (frames.map List.length).sum

/-- Whether a wire event is a `{"type":"scene", ...}` event. -/
def isSceneEvent : SceneWire → Bool
  | .scene _ => true
  | _ => false

/-! ## Dialogue orchestrator: the `sender` task of `dialogue_live`
(claims C6, C7)

The sender consumes queue payloads; on a `done` payload it runs one
dialogue cycle: reasoning call, `assistant_text`, speech synthesis,
`assistant_audio`, terminal `done`.  External outcomes are supplied by
oracles indexed by call number; `sendOk n` is the result of the n-th
`_safe_send` (False models a dead peer, which breaks the loop). -/

/-- Outcomes of the session's external collaborators and transport. -/
structure SenderCfg where
  sendOk : Nat → Bool
  chat : Nat → Except String String
  synth : Nat → String → Except String (List Nat)

/-- Progress of the sender task: sends attempted, reasoning calls made,
synthesis calls made, and the events actually delivered to the client. -/
structure SenderAcc where
  sendsTried : Nat
  chatCalls : Nat
  ttsCalls : Nat
  observed : List SceneWire
  deriving DecidableEq, Repr

/-- Sender state before any payload is consumed. -/
def SenderAcc.init : SenderAcc := ⟨0, 0, 0, []⟩

/-- Embedding of `_safe_send`: attempt one send; on success the client
observes the event, on failure nothing is delivered and False returns. -/
def senderSend (cfg : SenderCfg) (acc : SenderAcc) (w : SceneWire) :
    SenderAcc × Bool :=
  let ok := cfg.sendOk acc.sendsTried
  ({ acc with
      sendsTried := acc.sendsTried + 1,
      observed := if ok then acc.observed ++ [w] else acc.observed },
   ok)

/-- Default TTS_AUDIO_FORMAT configuration value. -/
def ttsAudioFormat : String := "wav"

/-- One dialogue cycle of the sender (the `done` branch of
`dialogue_live.sender`): join the final transcripts; if empty just send
`done`; otherwise call the reasoning engine (the request embeds the
cached scene summary, which does not affect control flow), on failure
send `error` then `done`; on success send `assistant_text`, synthesize
speech (on failure send a TTS-scoped `error` instead of
`assistant_audio`), and always finish with `done`.  The Bool is whether
the consumer loop continues (False = a failed send broke it). -/
def senderCycle (cfg : SenderCfg) (transcripts : List String)
    (acc : SenderAcc) : SenderAcc × Bool :=
  let userText := pyStrip (joinSp transcripts)
  if userText = "" then senderSend cfg acc .done
  else
    let chatRes := cfg.chat acc.chatCalls
    let acc1 := { acc with chatCalls := acc.chatCalls + 1 }
    match chatRes with
    | .error exc =>
        let r1 := senderSend cfg acc1 (.error exc)
        if r1.2 then senderSend cfg r1.1 .done else (r1.1, false)
    | .ok reply =>
        let r1 := senderSend cfg acc1 (.assistantText (pyStrip reply))
        if r1.2 = false then (r1.1, false)
        else
          let synthRes := cfg.synth r1.1.ttsCalls reply
          let acc3 := { r1.1 with ttsCalls := r1.1.ttsCalls + 1 }
          match synthRes with
          | .ok audio =>
              let r2 := senderSend cfg acc3 (.assistantAudio audio ttsAudioFormat)
              if r2.2 then senderSend cfg r2.1 .done else (r2.1, false)
          | .error exc =>
              let r2 := senderSend cfg acc3 (.error ("TTS失败: " ++ exc))
              if r2.2 then senderSend cfg r2.1 .done else (r2.1, false)

/-- The sender consumer loop: forward live payloads, break on the
terminal `None` marker or on a failed send, run a dialogue cycle per
`done` payload. -/
def senderLoop (cfg : SenderCfg) (acc : SenderAcc) :
    List (Option ScenePayload) → SenderAcc
  | [] => acc
  | none :: _ => acc
  | some p :: ps =>
    match p with
    | .ready =>
        let r := senderSend cfg acc .ready
        if r.2 then senderLoop cfg r.1 ps else r.1
    | .transcript t =>
        let r := senderSend cfg acc (.transcript t)
        if r.2 then senderLoop cfg r.1 ps else r.1
    | .error m =>
        let r := senderSend cfg acc (.error m)
        if r.2 then senderLoop cfg r.1 ps else r.1
    | .done ts =>
        let r := senderCycle cfg ts acc
        if r.2 then senderLoop cfg r.1 ps else r.1

/-! ## Mock TTS placeholder audio (`mock_tts_audio_bytes`, claim C10)
and the two `_synthesize_speech` variants (claim C8) -/

/-- Embedding of Python int() on a float: truncation toward zero. -/
def floatTruncToInt (x : Float) : Int :=
  if x < 0 then -(Int.ofNat ((-x).toUInt64.toNat)) else Int.ofNat (x.toUInt64.toNat)

/-- sample_rate in `mock_tts_audio_bytes`. -/
def mockSampleRate : Nat := 16000

/-- total_samples = int(sample_rate * duration_sec) with
duration_sec = 0.5 (an exact float product, 8000.0). -/
def mockTotalSamples : Nat := 8000

/-- One sample of the placeholder tone:
int(32767 * 0.25 * math.sin(2.0 * math.pi * 440.0 * (n / 16000))). -/
def sineSample (n : Nat) : Int :=
  floatTruncToInt ((32767.0 * 0.25) *
    Float.sin (((2.0 * 3.141592653589793) * 440.0) * (Float.ofNat n / 16000.0)))

/-- Little-endian signed 16-bit encoding, as in
sample.to_bytes(2, byteorder="little", signed=True): the two bytes of
the value mod 2^16. -/
def int16le (s : Int) : List Nat :=
  let u := (s % 65536).toNat
  [u % 256, u / 256]

/-- The PCM frame bytes written by `wav_file.writeframes`. -/
def wavFrames : List Nat :=
  (List.range mockTotalSamples).bind fun n => int16le (sineSample n)

/-- Little-endian 16-bit field of a WAV header. -/
def le16 (v : Nat) : List Nat := [v % 256, v / 256 % 256]

/-- Little-endian 32-bit field of a WAV header. -/
def le32 (v : Nat) : List Nat :=
  [v % 256, v / 256 % 256, v / 65536 % 256, v / 16777216 % 256]

/-- Byte length of the data chunk: 2 bytes per sample, mono. -/
def wavDataLen : Nat := 2 * mockTotalSamples

/-- Modelled from the Python stdlib wave module (not part of this
repository): the 44-byte canonical RIFF/WAVE header `wave.open(...,"wb")`
writes for nchannels=1, sampwidth=2 (16-bit PCM), framerate=16000 —
"RIFF", riff size 36+data, "WAVE", "fmt " of size 16 with format 1,
1 channel, rate, byte rate, block align 2, 16 bits, then "data"+size. -/
def wavHeader : List Nat :=
  [82, 73, 70, 70] ++ le32 (36 + wavDataLen) ++ [87, 65, 86, 69] ++
    [102, 109, 116, 32] ++ le32 16 ++ le16 1 ++ le16 1 ++
    le32 mockSampleRate ++ le32 (mockSampleRate * 2) ++ le16 2 ++ le16 16 ++
    [100, 97, 116, 97] ++ le32 wavDataLen

/-- Embedding of `mock_tts_audio_bytes` in shared/ai_clients.py: the
text argument is bound to `_` in the source and never used; the result
is always the same WAV file of a 440 Hz beep. -/
def mock_tts_audio_bytes (_ : Option String) : List Nat :=
  wavHeader ++ wavFrames

/-- Embedding of scene-recognition `_synthesize_speech`: blank text
raises; mock mode returns the placeholder without contacting the
engine; otherwise the external TTS outcome is used, any failure falling
back to the placeholder (the enclosing try/except). -/
def scene_synthesize (mock : Bool) (engine : Except String (List Nat))
    (text : String) : Except String (List Nat) :=
  if pyStrip text = "" then Except.error "text is required for TTS"
  else if mock then Except.ok (mock_tts_audio_bytes (some text))
  else
    match engine with
    | .ok audio => .ok audio
    | .error _ => .ok (mock_tts_audio_bytes (some text))

/-- Embedding of voice-interaction `_synthesize_speech`: blank text
raises; mock mode returns the placeholder; otherwise the external TTS
outcome — including failure — propagates to the caller, with no
fallback. -/
def voice_synthesize (mock : Bool) (engine : Except String (List Nat))
    (text : String) : Except String (List Nat) :=
  if pyStrip text = "" then Except.error "text is required for TTS."
  else if mock then Except.ok (mock_tts_audio_bytes (some text))
  else engine

/-! ## Audio chunking in `drive_recognizer` (claim C9) -/

/-- chunk_size in `drive_recognizer`. -/
def sendChunkSize : Nat := 8192

/-- Embedding of the chunking loop
`for i in range(0, len(audio_bytes), chunk_size)`: successive slices of
at most `sendChunkSize` bytes. -/
def chunkAudio (audio : List Nat) : List (List Nat) :=
  if h : audio = [] then []
  else audio.take sendChunkSize :: chunkAudio (audio.drop sendChunkSize)
termination_by audio.length
decreasing_by
  have hpos : 0 < audio.length := List.length_pos.2 h
  simp [sendChunkSize]
  omega

/-- One action of the drive loop: a blocking write of one chunk to the
recognizer, or the cooperative `await asyncio.sleep(0)`. -/
inductive DriveAct where
  | write (chunk : List Nat) : DriveAct
  | yield : DriveAct
  deriving DecidableEq, Repr

/-- The action trace of the chunk-feeding loop body:
`send_audio_frame(chunk)` followed by a zero-sleep yield, per chunk. -/
def driveTrace (audio : List Nat) : List DriveAct :=
  (chunkAudio audio).bind fun c => [DriveAct.write c, DriveAct.yield]

/-- The chunks written, in trace order. -/
def writesOf (tr : List DriveAct) : List (List Nat) :=
  tr.filterMap fun a =>
    match a with
    | .write c => some c
    | .yield => none

/-- True when no two writes are adjacent, i.e. a cooperative yield sits
between any two consecutive writes. -/
def noAdjacentWrites : List DriveAct → Bool
  | DriveAct.write _ :: DriveAct.write _ :: _ => false
  | _ :: rest => noAdjacentWrites rest
  | [] => true

/-- Concatenation of the chunks, in order. -/
def concatChunks (cs : List (List Nat)) : List Nat :=
  List.foldr (fun a b => a ++ b) [] cs

/-! ## Lemmas and claim theorems -/

lemma noneCount_append {α : Type} (a b : List (Option α)) :
    noneCount (a ++ b) = noneCount a + noneCount b := by
  simp [noneCount, List.filter_append]

lemma sceneCbStep_ended (st : SceneCbState) (cb : SceneCb) :
    ((sceneCbStep st cb).1).ended = (st.ended || cb.isTerminal) := by
  cases cb <;> simp [sceneCbStep, sceneFinish, SceneCb.isTerminal] <;>
    split <;> simp_all

lemma sceneCbStep_noneCount (st : SceneCbState) (cb : SceneCb) :
    noneCount (sceneCbStep st cb).2 =
      if st.ended then 0 else if cb.isTerminal then 1 else 0 := by
  cases cb <;> simp [sceneCbStep, sceneFinish, SceneCb.isTerminal, noneCount] <;>
    split <;> simp_all

lemma sceneCbRun_ended (st : SceneCbState) (cbs : List SceneCb) :
    ((sceneCbRun st cbs).1).ended = (st.ended || cbs.any SceneCb.isTerminal) := by
  induction cbs generalizing st with
  | nil => simp [sceneCbRun]
  | cons cb cbs ih =>
      simp only [sceneCbRun, List.any_cons]
      rw [ih, sceneCbStep_ended]
      cases st.ended <;> cases hcb : cb.isTerminal <;> simp

lemma sceneCbRun_noneCount (st : SceneCbState) (cbs : List SceneCb) :
    noneCount (sceneCbRun st cbs).2 =
      if st.ended then 0 else if cbs.any SceneCb.isTerminal then 1 else 0 := by
  induction cbs generalizing st with
  | nil => simp [sceneCbRun, noneCount]
  | cons cb cbs ih =>
      simp only [sceneCbRun, List.any_cons]
      rw [noneCount_append, ih, sceneCbStep_noneCount, sceneCbStep_ended]
      by_cases hst : st.ended = true <;> by_cases hcb : cb.isTerminal = true <;>
        simp [hst, hcb]

lemma voiceFinish_ended (st : VoiceCbState) (p : Option VoicePayload) :
    ((voiceFinish st p).1).ended = true := by
  by_cases h : st.ended = true <;> simp [voiceFinish, h]

lemma voiceFinish_noneCount (st : VoiceCbState) (p : Option VoicePayload) :
    noneCount (voiceFinish st p).2 = if st.ended then 0 else 1 := by
  by_cases h : st.ended = true <;> cases p <;> simp [voiceFinish, h, noneCount]

lemma voiceTranslationsRun_ended (st : VoiceCbState) (ps : List (String × String)) :
    ((voiceTranslationsRun st ps).1).ended = st.ended := by
  induction ps generalizing st with
  | nil => simp [voiceTranslationsRun]
  | cons p ps ih =>
      simp only [voiceTranslationsRun]
      rw [ih]
      by_cases h : p.2 = "" <;> simp [voiceTranslationStep, h]

lemma voiceTranslationsRun_noneCount (st : VoiceCbState) (ps : List (String × String)) :
    noneCount (voiceTranslationsRun st ps).2 = 0 := by
  induction ps generalizing st with
  | nil => simp [voiceTranslationsRun, noneCount]
  | cons p ps ih =>
      simp only [voiceTranslationsRun]
      rw [noneCount_append, ih]
      by_cases h : p.2 = "" <;> simp [voiceTranslationStep, h, noneCount]

lemma voiceCbStep_ended (st : VoiceCbState) (cb : VoiceCb) :
    ((voiceCbStep st cb).1).ended = (st.ended || cb.isTerminal) := by
  cases cb with
  | onOpen => simp [voiceCbStep, VoiceCb.isTerminal]
  | onEvent r t trs =>
      simp only [voiceCbStep, VoiceCb.isTerminal, Bool.or_false]
      rw [voiceTranslationsRun_ended]
      split <;> split <;> simp_all
  | onError m => simp [voiceCbStep, VoiceCb.isTerminal, voiceFinish_ended]
  | onComplete => simp [voiceCbStep, VoiceCb.isTerminal, voiceFinish_ended]
  | onClose =>
      by_cases h : st.ended = true <;>
        simp [voiceCbStep, VoiceCb.isTerminal, voiceFinish_ended, h]

lemma voiceCbStep_noneCount (st : VoiceCbState) (cb : VoiceCb) :
    noneCount (voiceCbStep st cb).2 =
      if st.ended then 0 else if cb.isTerminal then 1 else 0 := by
  cases cb with
  | onOpen => simp [voiceCbStep, VoiceCb.isTerminal, noneCount]
  | onEvent r t trs =>
      simp only [voiceCbStep, VoiceCb.isTerminal]
      rw [noneCount_append, voiceTranslationsRun_noneCount]
      split <;> split <;> simp_all [noneCount]
  | onError m =>
      have h := voiceFinish_noneCount st (some (.error
        (if (m.getD "") = "" then "translation recognizer error" else m.getD "")))
      simp only [voiceCbStep, VoiceCb.isTerminal]
      rw [h]; simp
  | onComplete =>
      have h := voiceFinish_noneCount st
        (some (.done st.requestId st.transcripts st.translationMap))
      simp only [voiceCbStep, VoiceCb.isTerminal]
      rw [h]; simp
  | onClose =>
      by_cases h : st.ended = true
      · simp [voiceCbStep, VoiceCb.isTerminal, h, noneCount]
      · simp only [voiceCbStep, VoiceCb.isTerminal, if_neg h]
        rw [voiceFinish_noneCount]
        simp [h]

lemma voiceCbRun_ended (st : VoiceCbState) (cbs : List VoiceCb) :
    ((voiceCbRun st cbs).1).ended = (st.ended || cbs.any VoiceCb.isTerminal) := by
  induction cbs generalizing st with
  | nil => simp [voiceCbRun]
  | cons cb cbs ih =>
      simp only [voiceCbRun, List.any_cons]
      rw [ih, voiceCbStep_ended]
      cases st.ended <;> cases hcb : cb.isTerminal <;> simp

lemma voiceCbRun_noneCount (st : VoiceCbState) (cbs : List VoiceCb) :
    noneCount (voiceCbRun st cbs).2 =
      if st.ended then 0 else if cbs.any VoiceCb.isTerminal then 1 else 0 := by
  induction cbs generalizing st with
  | nil => simp [voiceCbRun, noneCount]
  | cons cb cbs ih =>
      simp only [voiceCbRun, List.any_cons]
      rw [noneCount_append, ih, voiceCbStep_noneCount, voiceCbStep_ended]
      by_cases hst : st.ended = true <;> by_cases hcb : cb.isTerminal = true <;>
        simp [hst, hcb]

/-- C1: for every session and every terminating behaviour of the
recognition engine (any callback sequence containing at least one of
`on_error`, `on_complete`, `on_close`, in any combination and order),
the callback bridge enqueues the terminal `None` marker into the
session's event queue exactly once — in both the scene-recognition
bridge (`_StreamingASRCallback`) and the voice-interaction bridge
(`StreamingRecognizerCallback`). -/
theorem terminal_marker_enqueued_exactly_once :
    (∀ cbs : List SceneCb, cbs.any SceneCb.isTerminal = true →
        noneCount (sceneCbRun SceneCbState.start cbs).2 = 1) ∧
    (∀ cbs : List VoiceCb, cbs.any VoiceCb.isTerminal = true →
        noneCount (voiceCbRun VoiceCbState.start cbs).2 = 1) := by
  constructor
  · intro cbs h
    rw [sceneCbRun_noneCount, h]
    simp [SceneCbState.start]
  · intro cbs h
    rw [voiceCbRun_noneCount, h]
    simp [VoiceCbState.start]

/-- Witness for C1: a concrete engine behaviour ending via `on_complete`
followed by `on_close` (scene) and via `on_error` followed by `on_close`
(voice) each enqueue exactly one terminal marker. -/
theorem terminal_marker_enqueued_exactly_once_witness :
    noneCount (sceneCbRun SceneCbState.start
        [SceneCb.onOpen, SceneCb.onEvent (some "hi"), SceneCb.onComplete,
         SceneCb.onClose]).2 = 1 ∧
    noneCount (voiceCbRun VoiceCbState.start
        [VoiceCb.onOpen, VoiceCb.onError (some "boom"), VoiceCb.onClose]).2 = 1 :=
  ⟨terminal_marker_enqueued_exactly_once.1 _ (by decide),
   terminal_marker_enqueued_exactly_once.2 _ (by decide)⟩

lemma aggregatesFrom_append (segs : List String) (a b : List String) :
    aggregatesFrom segs (a ++ b) =
      aggregatesFrom segs a ++ aggregatesFrom (segs ++ a) b := by
  induction a generalizing segs with
  | nil => simp [aggregatesFrom]
  | cons f fs ih => simp [aggregatesFrom, ih, List.append_assoc]

lemma sceneCbStep_transcripts (st : SceneCbState) (cb : SceneCb) :
    transcriptTextsS (sceneCbStep st cb).2 =
        aggregatesFrom st.segments (sceneFragment cb).toList ∧
      ((sceneCbStep st cb).1).segments = st.segments ++ (sceneFragment cb).toList := by
  cases cb with
  | onEvent t =>
      simp only [sceneCbStep, sceneFragment]
      by_cases h : pyStrip (t.getD "") = "" <;>
        simp [h, transcriptTextsS, aggregatesFrom]
  | onOpen => simp [sceneCbStep, sceneFragment, transcriptTextsS, aggregatesFrom]
  | onError m =>
      unfold sceneCbStep sceneFinish
      by_cases h : st.ended = true <;>
        simp [h, sceneFragment, transcriptTextsS, aggregatesFrom]
  | onComplete =>
      unfold sceneCbStep sceneFinish
      by_cases h : st.ended = true <;>
        simp [h, sceneFragment, transcriptTextsS, aggregatesFrom]
  | onClose =>
      unfold sceneCbStep sceneFinish
      by_cases h : st.ended = true <;>
        simp [h, sceneFragment, transcriptTextsS, aggregatesFrom]

lemma sceneCbRun_transcripts (st : SceneCbState) (cbs : List SceneCb) :
    transcriptTextsS (sceneCbRun st cbs).2 =
        aggregatesFrom st.segments (sceneFragments cbs) ∧
      ((sceneCbRun st cbs).1).segments = st.segments ++ sceneFragments cbs := by
  induction cbs generalizing st with
  | nil => simp [sceneCbRun, sceneFragments, aggregatesFrom, transcriptTextsS]
  | cons cb cbs ih =>
      have hstep := sceneCbStep_transcripts st cb
      have hrest := ih (sceneCbStep st cb).1
      simp only [sceneCbRun, sceneFragments, List.filterMap_cons]
      constructor
      · show transcriptTextsS ((sceneCbStep st cb).2 ++ (sceneCbRun _ cbs).2) = _
        rw [show transcriptTextsS ((sceneCbStep st cb).2 ++ (sceneCbRun _ cbs).2) =
              transcriptTextsS (sceneCbStep st cb).2 ++
                transcriptTextsS (sceneCbRun (sceneCbStep st cb).1 cbs).2 by
            simp [transcriptTextsS, List.filterMap_append]]
        rw [hstep.1, hrest.1, hstep.2]
        cases hf : sceneFragment cb <;>
          simp [hf, aggregatesFrom, aggregatesFrom_append, sceneFragments]
      · show ((sceneCbRun (sceneCbStep st cb).1 cbs).1).segments = _
        rw [hrest.2, hstep.2]
        cases hf : sceneFragment cb <;> simp [hf, sceneFragments]

lemma voiceTranslationsRun_transcripts (st : VoiceCbState)
    (ps : List (String × String)) :
    transcriptTextsV (voiceTranslationsRun st ps).2 = [] ∧
      ((voiceTranslationsRun st ps).1).transcripts = st.transcripts := by
  induction ps generalizing st with
  | nil => simp [voiceTranslationsRun, transcriptTextsV]
  | cons p ps ih =>
      simp only [voiceTranslationsRun]
      have hrest := ih (voiceTranslationStep st p).1
      constructor
      · show transcriptTextsV ((voiceTranslationStep st p).2 ++ _) = _
        rw [show ∀ a b, transcriptTextsV (a ++ b) =
              transcriptTextsV a ++ transcriptTextsV b by
            intro a b; simp [transcriptTextsV, List.filterMap_append]]
        rw [hrest.1]
        by_cases h : p.2 = "" <;> simp [voiceTranslationStep, h, transcriptTextsV]
      · rw [hrest.2]
        by_cases h : p.2 = "" <;> simp [voiceTranslationStep, h]

lemma voiceCbStep_transcripts (st : VoiceCbState) (cb : VoiceCb) :
    transcriptTextsV (voiceCbStep st cb).2 =
        aggregatesFrom st.transcripts (voiceFragment cb).toList ∧
      ((voiceCbStep st cb).1).transcripts =
        st.transcripts ++ (voiceFragment cb).toList := by
  cases cb with
  | onEvent r t trs =>
      simp only [voiceCbStep, voiceFragment]
      have hreq : (if (r.getD "") = "" then st
          else { st with requestId := r }).transcripts = st.transcripts := by
        by_cases h : (r.getD "") = "" <;> simp [h]
      by_cases h : pyStrip (t.getD "") = ""
      · simp only [h, if_pos rfl, ite_true]
        have htr := voiceTranslationsRun_transcripts
          (if (r.getD "") = "" then st else { st with requestId := r }) trs
        constructor
        · rw [show ∀ a b, transcriptTextsV (a ++ b) =
                transcriptTextsV a ++ transcriptTextsV b by
              intro a b; simp [transcriptTextsV, List.filterMap_append]]
          rw [htr.1]
          simp [h, transcriptTextsV, aggregatesFrom]
        · simp [htr.2, hreq]
      · simp only [h, ite_false, if_neg h]
        have htr := voiceTranslationsRun_transcripts
          { (if (r.getD "") = "" then st else { st with requestId := r }) with
              transcripts :=
                (if (r.getD "") = "" then st
                  else { st with requestId := r }).transcripts ++ [pyStrip (t.getD "")] }
          trs
        constructor
        · rw [show ∀ a b, transcriptTextsV (a ++ b) =
                transcriptTextsV a ++ transcriptTextsV b by
              intro a b; simp [transcriptTextsV, List.filterMap_append]]
          rw [htr.1]
          simp [transcriptTextsV, aggregatesFrom, hreq]
        · rw [htr.2]
          simp [hreq]
  | onOpen => simp [voiceCbStep, voiceFragment, transcriptTextsV, aggregatesFrom]
  | onError m =>
      unfold voiceCbStep voiceFinish
      by_cases h : st.ended = true <;>
        simp [h, voiceFragment, transcriptTextsV, aggregatesFrom]
  | onComplete =>
      unfold voiceCbStep voiceFinish
      by_cases h : st.ended = true <;>
        simp [h, voiceFragment, transcriptTextsV, aggregatesFrom]
  | onClose =>
      unfold voiceCbStep voiceFinish
      by_cases h : st.ended = true <;>
        simp [h, voiceFragment, transcriptTextsV, aggregatesFrom]

lemma voiceCbRun_transcripts (st : VoiceCbState) (cbs : List VoiceCb) :
    transcriptTextsV (voiceCbRun st cbs).2 =
        aggregatesFrom st.transcripts (voiceFragments cbs) ∧
      ((voiceCbRun st cbs).1).transcripts = st.transcripts ++ voiceFragments cbs := by
  induction cbs generalizing st with
  | nil => simp [voiceCbRun, voiceFragments, aggregatesFrom, transcriptTextsV]
  | cons cb cbs ih =>
      have hstep := voiceCbStep_transcripts st cb
      have hrest := ih (voiceCbStep st cb).1
      simp only [voiceCbRun, voiceFragments, List.filterMap_cons]
      constructor
      · show transcriptTextsV ((voiceCbStep st cb).2 ++ (voiceCbRun _ cbs).2) = _
        rw [show ∀ a b, transcriptTextsV (a ++ b) =
              transcriptTextsV a ++ transcriptTextsV b by
            intro a b; simp [transcriptTextsV, List.filterMap_append]]
        rw [hstep.1, hrest.1, hstep.2]
        cases hf : voiceFragment cb <;>
          simp [hf, aggregatesFrom, aggregatesFrom_append, voiceFragments]
      · show ((voiceCbRun (voiceCbStep st cb).1 cbs).1).transcripts = _
        rw [hrest.2, hstep.2]
        cases hf : voiceFragment cb <;> simp [hf, voiceFragments]

/-- C3: for every sequence of engine callbacks whose accepted (non-empty,
stripped) transcription fragments are exactly "hello" then "world", the
bridge emits transcript events carrying the full aggregated strings
"hello" then "hello world" — the complete space-joined utterance is
re-announced each time, never a delta.  Holds for both services'
callbacks. -/
theorem transcript_events_reannounce_full_aggregate :
    (∀ cbs : List SceneCb, sceneFragments cbs = ["hello", "world"] →
        transcriptTextsS (sceneCbRun SceneCbState.start cbs).2 =
          ["hello", "hello world"]) ∧
    (∀ cbs : List VoiceCb, voiceFragments cbs = ["hello", "world"] →
        transcriptTextsV (voiceCbRun VoiceCbState.start cbs).2 =
          ["hello", "hello world"]) := by
  constructor
  · intro cbs h
    rw [(sceneCbRun_transcripts SceneCbState.start cbs).1]
    rw [show SceneCbState.start.segments = [] from rfl, h]
    decide
  · intro cbs h
    rw [(voiceCbRun_transcripts VoiceCbState.start cbs).1]
    rw [show VoiceCbState.start.transcripts = [] from rfl, h]
    decide

/-- Witness for C3: a concrete callback sequence (with an interleaved
no-op event and surrounding whitespace on the second fragment) produces
exactly the transcript announcements "hello" then "hello world". -/
theorem transcript_events_reannounce_full_aggregate_witness :
    transcriptTextsS (sceneCbRun SceneCbState.start
        [SceneCb.onOpen, SceneCb.onEvent (some "hello"), SceneCb.onEvent none,
         SceneCb.onEvent (some " world "), SceneCb.onComplete]).2 =
      ["hello", "hello world"] ∧
    transcriptTextsV (voiceCbRun VoiceCbState.start
        [VoiceCb.onOpen, VoiceCb.onEvent none (some "hello") [],
         VoiceCb.onEvent (some "r1") (some "world") [("en", "hi")],
         VoiceCb.onComplete]).2 = ["hello", "hello world"] :=
  ⟨transcript_events_reannounce_full_aggregate.1 _ (by decide),
   transcript_events_reannounce_full_aggregate.2 _ (by decide)⟩

lemma sumLens_cons (f : List Nat) (fs : List (List Nat)) :
    sumLens (f :: fs) = f.length + sumLens fs := by
  simp [sumLens]

lemma voiceLoop_audio_within (maxBytes : Nat) :
    ∀ (frames : List (List Nat)) (total : Nat),
      (∀ f ∈ frames, f ≠ []) → total + sumLens frames ≤ maxBytes →
      voiceLoop maxBytes total (frames.map InMsg.audio ++ [InMsg.disconnect]) =
        some ⟨frames, 0, false, false⟩ := by
  intro frames
  induction frames with
  | nil => intro total h hb; simp [voiceLoop]
  | cons f fs ih =>
      intro total h hb
      have hf : f ≠ [] := h f (by simp)
      rw [sumLens_cons] at hb
      simp only [List.map_cons, List.cons_append, voiceLoop]
      rw [if_neg hf, if_neg (by omega)]
      simp only [List.append_eq]
      rw [ih (total + f.length) (fun g hg => h g (by simp [hg])) (by omega)]
      rfl

lemma voiceLoop_audio_over (maxBytes : Nat) :
    ∀ (k : Nat) (frames : List (List Nat)) (total : Nat),
      (∀ f ∈ frames, f ≠ []) → k < frames.length →
      total + sumLens (frames.take k) ≤ maxBytes →
      maxBytes < total + sumLens (frames.take (k + 1)) →
      voiceLoop maxBytes total (frames.map InMsg.audio ++ [InMsg.disconnect]) =
        some ⟨frames.take k, 0, false, true⟩ := by
  intro k
  induction k with
  | zero =>
      intro frames total h hk h1 h2
      match frames with
      | [] => simp at hk
      | f :: fs =>
        have hf : f ≠ [] := h f (by simp)
        rw [List.take_succ_cons, List.take_zero, sumLens_cons] at h2
        simp [sumLens] at h2
        simp only [List.map_cons, List.cons_append, voiceLoop]
        rw [if_neg hf, if_pos (by omega)]
        simp
  | succ k ih =>
      intro frames total h hk h1 h2
      match frames with
      | [] => simp at hk
      | f :: fs =>
        have hf : f ≠ [] := h f (by simp)
        rw [List.take_succ_cons, sumLens_cons] at h1
        rw [List.take_succ_cons, sumLens_cons] at h2
        simp only [List.length_cons, Nat.succ_lt_succ_iff] at hk
        simp only [List.map_cons, List.cons_append, voiceLoop]
        rw [if_neg hf, if_neg (by omega)]
        simp only [List.append_eq]
        rw [ih fs (total + f.length) (fun g hg => h g (by simp [hg])) hk
              (by omega) (by omega)]
        rfl

lemma sceneLoop_audio_within (maxBytes : Nat) (analyze : String → Except String Scene) :
    ∀ (frames : List (List Nat)) (st : SceneLoopState),
      (∀ f ∈ frames, f ≠ []) → st.totalBytes + sumLens frames ≤ maxBytes →
      sceneLoop maxBytes analyze st (frames.map InMsg.audio ++ [InMsg.disconnect]) =
        some ⟨[], frames, 0, 0,
              { st with totalBytes := st.totalBytes + sumLens frames }⟩ := by
  intro frames
  induction frames with
  | nil => intro st h hb; simp [sceneLoop, sumLens]
  | cons f fs ih =>
      intro st h hb
      have hf : f ≠ [] := h f (by simp)
      rw [sumLens_cons] at hb
      simp only [List.map_cons, List.cons_append, sceneLoop]
      rw [if_neg hf, if_neg (by omega)]
      simp only [List.append_eq]
      rw [ih { st with totalBytes := st.totalBytes + f.length }
            (fun g hg => h g (by simp [hg])) (by simp; omega)]
      simp [sumLens_cons, Nat.add_assoc]

lemma sceneLoop_audio_over (maxBytes : Nat) (analyze : String → Except String Scene) :
    ∀ (k : Nat) (frames : List (List Nat)) (st : SceneLoopState),
      (∀ f ∈ frames, f ≠ []) → k < frames.length →
      st.totalBytes + sumLens (frames.take k) ≤ maxBytes →
      maxBytes < st.totalBytes + sumLens (frames.take (k + 1)) →
      sceneLoop maxBytes analyze st (frames.map InMsg.audio ++ [InMsg.disconnect]) =
        some ⟨[SceneWire.error "音频流超过大小限制"], frames.take k, 0, 0,
              { st with totalBytes := st.totalBytes + sumLens (frames.take (k + 1)) }⟩ := by
  intro k
  induction k with
  | zero =>
      intro frames st h hk h1 h2
      match frames with
      | [] => simp at hk
      | f :: fs =>
        have hf : f ≠ [] := h f (by simp)
        rw [List.take_succ_cons, List.take_zero, sumLens_cons] at h2 ⊢
        simp [sumLens] at h2 ⊢
        simp only [List.map_cons, List.cons_append, sceneLoop]
        rw [if_neg hf, if_pos (by omega)]
  | succ k ih =>
      intro frames st h hk h1 h2
      match frames with
      | [] => simp at hk
      | f :: fs =>
        have hf : f ≠ [] := h f (by simp)
        rw [List.take_succ_cons, sumLens_cons] at h1
        rw [List.take_succ_cons, sumLens_cons] at h2
        simp only [List.length_cons, Nat.succ_lt_succ_iff] at hk
        simp only [List.map_cons, List.cons_append, sceneLoop]
        rw [if_neg hf, if_neg (by omega)]
        simp only [List.append_eq]
        rw [ih fs { st with totalBytes := st.totalBytes + f.length }
              (fun g hg => h g (by simp [hg])) hk (by simp; omega) (by simp; omega)]
        simp [List.take_succ_cons, sumLens_cons, Nat.add_assoc]

/-- C4: for every sequence of non-empty inbound audio frames on a live
session, in both services: if the cumulative byte count equals
`MAX_AUDIO_BYTES` exactly, every frame is forwarded to the recognizer
and no oversized error fires; if the count first crosses the ceiling at
frame `k`, the oversized-error path is taken there, frames from `k` on
are not forwarded, and the ingest loop terminates. -/
theorem byte_budget_exact_succeeds_overflow_errors (maxBytes : Nat)
    (frames : List (List Nat)) (hne : ∀ f ∈ frames, f ≠ [])
    (analyze : String → Except String Scene) :
    (sumLens frames = maxBytes →
      voiceLoop maxBytes 0 (frames.map InMsg.audio ++ [InMsg.disconnect]) =
          some ⟨frames, 0, false, false⟩ ∧
        sceneLoop maxBytes analyze SceneLoopState.init
            (frames.map InMsg.audio ++ [InMsg.disconnect]) =
          some ⟨[], frames, 0, 0, ⟨none, none, maxBytes, false⟩⟩) ∧
    (∀ k, k < frames.length → sumLens (frames.take k) ≤ maxBytes →
        maxBytes < sumLens (frames.take (k + 1)) →
      voiceLoop maxBytes 0 (frames.map InMsg.audio ++ [InMsg.disconnect]) =
          some ⟨frames.take k, 0, false, true⟩ ∧
        sceneLoop maxBytes analyze SceneLoopState.init
            (frames.map InMsg.audio ++ [InMsg.disconnect]) =
          some ⟨[SceneWire.error "音频流超过大小限制"], frames.take k, 0, 0,
                ⟨none, none, sumLens (frames.take (k + 1)), false⟩⟩) := by
  constructor
  · intro hsum
    constructor
    · exact voiceLoop_audio_within maxBytes frames 0 hne (by omega)
    · have h := sceneLoop_audio_within maxBytes analyze frames
        SceneLoopState.init hne (by simp [SceneLoopState.init]; omega)
      rw [h]
      simp [SceneLoopState.init, hsum]
  · intro k hk h1 h2
    constructor
    · exact voiceLoop_audio_over maxBytes k frames 0 hne hk (by omega) (by omega)
    · have h := sceneLoop_audio_over maxBytes analyze k frames
        SceneLoopState.init hne hk (by simp [SceneLoopState.init]; omega)
        (by simp [SceneLoopState.init]; omega)
      rw [h]
      simp [SceneLoopState.init]

/-- Witness for C4: with a 10-byte ceiling, frames of 3+7 bytes (exactly
the ceiling) are all forwarded with no error; frames of 3+8+1 bytes
cross the ceiling at the second frame, which with everything after it is
not forwarded. -/
theorem byte_budget_exact_succeeds_overflow_errors_witness :
    (voiceLoop 10 0 ([[1, 2, 3], [4, 5, 6, 7, 8, 9, 1]].map InMsg.audio ++
          [InMsg.disconnect]) =
        some ⟨[[1, 2, 3], [4, 5, 6, 7, 8, 9, 1]], 0, false, false⟩ ∧
      sceneLoop 10 (fun _ => Except.error "x") SceneLoopState.init
          ([[1, 2, 3], [4, 5, 6, 7, 8, 9, 1]].map InMsg.audio ++ [InMsg.disconnect]) =
        some ⟨[], [[1, 2, 3], [4, 5, 6, 7, 8, 9, 1]], 0, 0, ⟨none, none, 10, false⟩⟩) ∧
    (voiceLoop 10 0 ([[1, 2, 3], [4, 5, 6, 7, 8, 9, 1, 0], [9]].map InMsg.audio ++
          [InMsg.disconnect]) =
        some ⟨[[1, 2, 3]], 0, false, true⟩ ∧
      sceneLoop 10 (fun _ => Except.error "x") SceneLoopState.init
          ([[1, 2, 3], [4, 5, 6, 7, 8, 9, 1, 0], [9]].map InMsg.audio ++
            [InMsg.disconnect]) =
        some ⟨[SceneWire.error "音频流超过大小限制"], [[1, 2, 3]], 0, 0,
              ⟨none, none, 11, false⟩⟩) :=
  ⟨(byte_budget_exact_succeeds_overflow_errors 10 _ (by decide) _).1 (by decide),
   by
    have h := (byte_budget_exact_succeeds_overflow_errors 10
      [[1, 2, 3], [4, 5, 6, 7, 8, 9, 1, 0], [9]] (by decide)
      (fun _ => Except.error "x")).2 1 (by decide) (by decide) (by decide)
    simpa using h⟩

lemma voiceLoop_stop_once (maxBytes : Nat) :
    ∀ (msgs : List InMsg) (total : Nat) (e : VoiceLoopExit),
      voiceLoop maxBytes total msgs = some e →
      e.stopCalls + (if e.stopped then 0 else 1) = 1 := by
  intro msgs
  induction msgs with
  | nil => intro total e h; simp [voiceLoop] at h
  | cons msg msgs ih =>
      intro total e h
      cases msg with
      | audio chunk =>
          simp only [voiceLoop] at h
          by_cases hc : chunk = []
          · rw [if_pos hc] at h; exact ih total e h
          · rw [if_neg hc] at h
            by_cases ht : total + chunk.length > maxBytes
            · rw [if_pos ht] at h
              obtain rfl := Option.some.inj h
              rfl
            · rw [if_neg ht] at h
              obtain ⟨e', he', rfl⟩ := Option.map_eq_some'.1 h
              exact ih (total + chunk.length) e' he'
      | text ctl =>
          cases ctl with
          | stop =>
              simp only [voiceLoop] at h
              obtain rfl := Option.some.inj h
              rfl
          | frame url b64 => simp only [voiceLoop] at h; exact ih total e h
          | invalid => simp only [voiceLoop] at h; exact ih total e h
      | disconnect =>
          simp only [voiceLoop] at h
          obtain rfl := Option.some.inj h
          rfl

lemma voiceLoop_isSome (maxBytes : Nat) :
    ∀ (msgs : List InMsg) (total : Nat), InMsg.disconnect ∈ msgs →
      (voiceLoop maxBytes total msgs).isSome = true := by
  intro msgs
  induction msgs with
  | nil => intro total h; simp at h
  | cons msg msgs ih =>
      intro total h
      cases msg with
      | audio chunk =>
          have hm : InMsg.disconnect ∈ msgs := by simpa using h
          simp only [voiceLoop]
          by_cases hc : chunk = []
          · rw [if_pos hc]; exact ih total hm
          · rw [if_neg hc]
            by_cases ht : total + chunk.length > maxBytes
            · rw [if_pos ht]; rfl
            · rw [if_neg ht]
              rw [Option.isSome_map']
              exact ih (total + chunk.length) hm
      | text ctl =>
          cases ctl with
          | stop => simp only [voiceLoop]; rfl
          | frame url b64 =>
              have hm : InMsg.disconnect ∈ msgs := by simpa using h
              simp only [voiceLoop]; exact ih total hm
          | invalid =>
              have hm : InMsg.disconnect ∈ msgs := by simpa using h
              simp only [voiceLoop]; exact ih total hm
      | disconnect => simp only [voiceLoop]; rfl

lemma sceneLoop_stopped_eq (maxBytes : Nat) (analyze : String → Except String Scene) :
    ∀ (msgs : List InMsg) (st : SceneLoopState) (e : SceneLoopExit),
      sceneLoop maxBytes analyze st msgs = some e → e.stopCalls = 0 →
      e.final.stopped = st.stopped := by
  intro msgs
  induction msgs with
  | nil => intro st e h h0; simp [sceneLoop] at h
  | cons msg msgs ih =>
      intro st e h h0
      cases msg with
      | audio chunk =>
          simp only [sceneLoop] at h
          by_cases hc : chunk = []
          · rw [if_pos hc] at h; exact ih st e h h0
          · rw [if_neg hc] at h
            by_cases ht : st.totalBytes + chunk.length > maxBytes
            · rw [if_pos ht] at h
              obtain rfl := Option.some.inj h
              rfl
            · rw [if_neg ht] at h
              obtain ⟨e', he', rfl⟩ := Option.map_eq_some'.1 h
              exact ih { st with totalBytes := st.totalBytes + chunk.length } e' he'
                (by simpa using h0)
      | text ctl =>
          cases ctl with
          | stop =>
              simp only [sceneLoop] at h
              obtain ⟨e', he', rfl⟩ := Option.map_eq_some'.1 h
              simp at h0
          | frame url b64 =>
              simp only [sceneLoop] at h
              split at h
              · exact ih st e h h0
              · rename_i u heff
                split at h
                · exact ih st e h h0
                · split at h
                  · rename_i s hok
                    obtain ⟨e', he', rfl⟩ := Option.map_eq_some'.1 h
                    have hx := ih
                      { st with currentScene := some s, lastImageUrl := some u }
                      e' he' (by simpa using h0)
                    simpa using hx
                  · rename_i exc herr
                    obtain ⟨e', he', rfl⟩ := Option.map_eq_some'.1 h
                    exact ih st e' he' (by simpa using h0)
          | invalid => simp only [sceneLoop] at h; exact ih st e h h0
      | disconnect =>
          simp only [sceneLoop] at h
          obtain rfl := Option.some.inj h
          rfl

lemma sceneLoop_isSome (maxBytes : Nat) (analyze : String → Except String Scene) :
    ∀ (msgs : List InMsg) (st : SceneLoopState), InMsg.disconnect ∈ msgs →
      (sceneLoop maxBytes analyze st msgs).isSome = true := by
  intro msgs
  induction msgs with
  | nil => intro st h; simp at h
  | cons msg msgs ih =>
      intro st h
      cases msg with
      | audio chunk =>
          have hm : InMsg.disconnect ∈ msgs := by simpa using h
          simp only [sceneLoop]
          by_cases hc : chunk = []
          · rw [if_pos hc]; exact ih st hm
          · rw [if_neg hc]
            by_cases ht : st.totalBytes + chunk.length > maxBytes
            · rw [if_pos ht]; rfl
            · rw [if_neg ht]
              rw [Option.isSome_map']
              exact ih _ hm
      | text ctl =>
          cases ctl with
          | stop =>
              have hm : InMsg.disconnect ∈ msgs := by simpa using h
              simp only [sceneLoop]
              rw [Option.isSome_map']
              exact ih _ hm
          | frame url b64 =>
              have hm : InMsg.disconnect ∈ msgs := by simpa using h
              simp only [sceneLoop]
              split
              · exact ih st hm
              · split
                · exact ih st hm
                · split
                  · rw [Option.isSome_map']; exact ih _ hm
                  · rw [Option.isSome_map']; exact ih st hm
          | invalid =>
              have hm : InMsg.disconnect ∈ msgs := by simpa using h
              simp only [sceneLoop]; exact ih st hm
      | disconnect => simp only [sceneLoop]; rfl

lemma sceneLoop_no_stop_msgs (maxBytes : Nat) (analyze : String → Except String Scene) :
    ∀ (msgs : List InMsg) (st : SceneLoopState) (e : SceneLoopExit),
      InMsg.text TextCtl.stop ∉ msgs →
      sceneLoop maxBytes analyze st msgs = some e → e.stopCalls = 0 := by
  intro msgs
  induction msgs with
  | nil => intro st e hm h; simp [sceneLoop] at h
  | cons msg msgs ih =>
      intro st e hm h
      have hm2 : InMsg.text TextCtl.stop ∉ msgs := fun hx => hm (by simp [hx])
      cases msg with
      | audio chunk =>
          simp only [sceneLoop] at h
          by_cases hc : chunk = []
          · rw [if_pos hc] at h; exact ih st e hm2 h
          · rw [if_neg hc] at h
            by_cases ht : st.totalBytes + chunk.length > maxBytes
            · rw [if_pos ht] at h
              obtain rfl := Option.some.inj h
              rfl
            · rw [if_neg ht] at h
              obtain ⟨e', he', rfl⟩ := Option.map_eq_some'.1 h
              simpa using ih _ e' hm2 he'
      | text ctl =>
          cases ctl with
          | stop => exact absurd (by simp) hm
          | frame url b64 =>
              simp only [sceneLoop] at h
              split at h
              · exact ih st e hm2 h
              · split at h
                · exact ih st e hm2 h
                · split at h
                  · obtain ⟨e', he', rfl⟩ := Option.map_eq_some'.1 h
                    simpa using ih _ e' hm2 he'
                  · obtain ⟨e', he', rfl⟩ := Option.map_eq_some'.1 h
                    simpa using ih st e' hm2 he'
          | invalid => simp only [sceneLoop] at h; exact ih st e hm2 h
      | disconnect =>
          simp only [sceneLoop] at h
          obtain rfl := Option.some.inj h
          rfl

/-- Counterexample for C5: in the scene-recognition session, the ingest
loop does not exit on a `stop` control message, so a client that sends
`stop` twice causes `recognizer.stop` to be invoked twice — the claim
that stop is never invoked twice fails. -/
theorem stop_invoked_twice_on_repeated_stop :
    sceneStops 100 (fun _ => Except.error "x")
        [InMsg.text TextCtl.stop, InMsg.text TextCtl.stop, InMsg.disconnect] =
      some 2 ∧
    sceneStops 100 (fun _ => Except.error "x")
        [InMsg.text TextCtl.stop, InMsg.text TextCtl.stop, InMsg.disconnect] ≠
      some 1 := by
  constructor <;> decide

/-- C5 (amended): on every terminating message sequence the recognition
engine's stop routine is never skipped.  In the voice-interaction
session it is invoked exactly once (its loop breaks on `stop`).  In the
scene-recognition session it is invoked at least once, and exactly once
when no `stop` control message arrives; but each repeated `stop` message
invokes it again, since that loop does not break on `stop`. -/
theorem stop_invoked_at_least_once_voice_exactly_once :
    (∀ (maxBytes : Nat) (msgs : List InMsg), InMsg.disconnect ∈ msgs →
        voiceStops maxBytes msgs = some 1) ∧
    (∀ (maxBytes : Nat) (analyze : String → Except String Scene)
        (msgs : List InMsg), InMsg.disconnect ∈ msgs →
        ∃ n, sceneStops maxBytes analyze msgs = some n ∧ 1 ≤ n) ∧
    (∀ (maxBytes : Nat) (analyze : String → Except String Scene)
        (msgs : List InMsg), InMsg.disconnect ∈ msgs →
        InMsg.text TextCtl.stop ∉ msgs →
        sceneStops maxBytes analyze msgs = some 1) := by
  refine ⟨?_, ?_, ?_⟩
  · intro maxBytes msgs hmem
    obtain ⟨e, he⟩ := Option.isSome_iff_exists.1 (voiceLoop_isSome maxBytes msgs 0 hmem)
    rw [voiceStops, he, Option.map_some']
    rw [voiceLoop_stop_once maxBytes msgs 0 e he]
  · intro maxBytes analyze msgs hmem
    obtain ⟨e, he⟩ := Option.isSome_iff_exists.1
      (sceneLoop_isSome maxBytes analyze msgs SceneLoopState.init hmem)
    refine ⟨e.stopCalls + (if e.final.stopped then 0 else 1), ?_, ?_⟩
    · rw [sceneStops, he, Option.map_some']
    · by_cases h0 : e.stopCalls = 0
      · have := sceneLoop_stopped_eq maxBytes analyze msgs SceneLoopState.init e he h0
        rw [h0, this]
        simp [SceneLoopState.init]
      · omega
  · intro maxBytes analyze msgs hmem hstop
    obtain ⟨e, he⟩ := Option.isSome_iff_exists.1
      (sceneLoop_isSome maxBytes analyze msgs SceneLoopState.init hmem)
    have h0 := sceneLoop_no_stop_msgs maxBytes analyze msgs SceneLoopState.init e hstop he
    have h1 := sceneLoop_stopped_eq maxBytes analyze msgs SceneLoopState.init e he h0
    rw [sceneStops, he, Option.map_some', h0, h1]
    simp [SceneLoopState.init]

/-- Witness for C5 (amended): a voice session ending by disconnect, a
scene session with one stop message, and a scene session with no stop
message each invoke stop the stated number of times. -/
theorem stop_invoked_at_least_once_voice_exactly_once_witness :
    voiceStops 100 [InMsg.audio [1, 2], InMsg.text TextCtl.stop, InMsg.disconnect] =
        some 1 ∧
    (∃ n, sceneStops 100 (fun _ => Except.error "x")
        [InMsg.text TextCtl.stop, InMsg.disconnect] = some n ∧ 1 ≤ n) ∧
    sceneStops 100 (fun _ => Except.error "x")
        [InMsg.audio [1, 2], InMsg.disconnect] = some 1 :=
  ⟨stop_invoked_at_least_once_voice_exactly_once.1 100 _ (by decide),
   stop_invoked_at_least_once_voice_exactly_once.2.1 100 _ _ (by decide),
   stop_invoked_at_least_once_voice_exactly_once.2.2 100 _ _ (by decide) (by decide)⟩

/-- Counterexample for C2: submitting the same image reference twice
does trigger exactly one external analyze call, but the client observes
only one `scene` event, not two — the second identical frame is skipped
entirely and no cached snapshot is re-sent. -/
theorem duplicate_frame_emits_single_scene_event :
    ((sceneLoop 100 (fun _ => Except.ok ⟨"demo summary", []⟩) SceneLoopState.init
          [InMsg.text (TextCtl.frame (some "http://img") none),
           InMsg.text (TextCtl.frame (some "http://img") none),
           InMsg.disconnect]).map
        fun e => ((e.sends.filter isSceneEvent).length, e.analyzeCalls)) =
      some (1, 1) ∧
    ((sceneLoop 100 (fun _ => Except.ok ⟨"demo summary", []⟩) SceneLoopState.init
          [InMsg.text (TextCtl.frame (some "http://img") none),
           InMsg.text (TextCtl.frame (some "http://img") none),
           InMsg.disconnect]).map
        fun e => (e.sends.filter isSceneEvent).length) ≠ some 2 := by
  constructor <;> decide

/-- C2 (amended): submitting the same non-empty image reference twice
triggers exactly one call to the external vision analyze engine and the
client observes exactly one `scene` event; the second identical frame is
deduplicated against `last_image_url` and skipped without any re-send,
leaving the cached snapshot in place. -/
theorem duplicate_frame_single_analyze_single_scene_event
    (maxBytes : Nat) (analyze : String → Except String Scene)
    (u : String) (s : Scene) (hu : u ≠ "") (ha : analyze u = Except.ok s) :
    sceneLoop maxBytes analyze SceneLoopState.init
        [InMsg.text (TextCtl.frame (some u) none),
         InMsg.text (TextCtl.frame (some u) none), InMsg.disconnect] =
      some ⟨[SceneWire.scene s], [], 1, 0, ⟨some u, some s, 0, false⟩⟩ := by
  simp [sceneLoop, SceneLoopState.init, hu, ha]

/-- Witness for C2 (amended): a concrete repeated frame produces one
analyze call, one scene event, and the snapshot cached. -/
theorem duplicate_frame_single_analyze_single_scene_event_witness :
    sceneLoop 100 (fun _ => Except.ok (⟨"demo summary", []⟩ : Scene))
        SceneLoopState.init
        [InMsg.text (TextCtl.frame (some "http://img") none),
         InMsg.text (TextCtl.frame (some "http://img") none), InMsg.disconnect] =
      some ⟨[SceneWire.scene ⟨"demo summary", []⟩], [], 1, 0,
            ⟨some "http://img", some ⟨"demo summary", []⟩, 0, false⟩⟩ :=
  duplicate_frame_single_analyze_single_scene_event 100 _ "http://img" _
    (by decide) rfl

/-- C6: in scene-dialogue mode, a `Done` recognition event whose joined
final transcript is empty makes the orchestrator emit exactly one `done`
event and end the cycle: the reasoning engine is not invoked, and no
`assistant_text` or `assistant_audio` is emitted. -/
theorem empty_transcript_emits_done_only (cfg : SenderCfg)
    (hsend : ∀ n, cfg.sendOk n = true) (ts : List String)
    (hts : pyStrip (joinSp ts) = "") :
    senderCycle cfg ts SenderAcc.init = (⟨1, 0, 0, [SceneWire.done]⟩, true) ∧
    senderLoop cfg SenderAcc.init [some (ScenePayload.done ts), none] =
      ⟨1, 0, 0, [SceneWire.done]⟩ := by
  have h0 := hsend 0
  constructor
  · simp [senderCycle, hts, senderSend, SenderAcc.init, h0]
  · simp [senderLoop, senderCycle, hts, senderSend, SenderAcc.init, h0]

/-- Witness for C6: with an always-alive peer and an empty transcript
list, the cycle delivers exactly one `done` and makes no reasoning or
synthesis call. -/
theorem empty_transcript_emits_done_only_witness :
    senderCycle ⟨fun _ => true, fun _ => Except.ok "r", fun _ _ => Except.ok []⟩
        [] SenderAcc.init = (⟨1, 0, 0, [SceneWire.done]⟩, true) ∧
    senderLoop ⟨fun _ => true, fun _ => Except.ok "r", fun _ _ => Except.ok []⟩
        SenderAcc.init [some (ScenePayload.done []), none] =
      ⟨1, 0, 0, [SceneWire.done]⟩ :=
  empty_transcript_emits_done_only _ (fun _ => rfl) [] (by decide)

/-- C7: if the reasoning call for a dialogue cycle fails, the client
observes an `error` event followed by a `done` event, with no
`assistant_text` or `assistant_audio` and no synthesis call for that
cycle, and the consumer loop continues: a further utterance (here an
empty one) is still processed and produces its own `done`. -/
theorem llm_failure_error_then_done_session_continues (cfg : SenderCfg)
    (hsend : ∀ n, cfg.sendOk n = true) (ts ts2 : List String) (e : String)
    (h1 : pyStrip (joinSp ts) ≠ "") (hchat : cfg.chat 0 = Except.error e)
    (hts2 : pyStrip (joinSp ts2) = "") :
    senderCycle cfg ts SenderAcc.init =
        (⟨2, 1, 0, [SceneWire.error e, SceneWire.done]⟩, true) ∧
    senderLoop cfg SenderAcc.init
        [some (ScenePayload.done ts), some (ScenePayload.done ts2), none] =
      ⟨3, 1, 0, [SceneWire.error e, SceneWire.done, SceneWire.done]⟩ := by
  have h0 := hsend 0
  have hs1 := hsend 1
  have hs2 := hsend 2
  constructor
  · simp [senderCycle, h1, hchat, senderSend, SenderAcc.init, h0, hs1]
  · simp [senderLoop, senderCycle, h1, hchat, hts2, senderSend, SenderAcc.init,
      h0, hs1, hs2]

/-- Witness for C7: a concrete failing reasoning call yields exactly
`error` then `done`, and the following (empty) utterance still yields a
`done`. -/
theorem llm_failure_error_then_done_session_continues_witness :
    senderCycle ⟨fun _ => true, fun _ => Except.error "llm down", fun _ _ => Except.ok []⟩
        ["hi"] SenderAcc.init =
        (⟨2, 1, 0, [SceneWire.error "llm down", SceneWire.done]⟩, true) ∧
    senderLoop ⟨fun _ => true, fun _ => Except.error "llm down", fun _ _ => Except.ok []⟩
        SenderAcc.init
        [some (ScenePayload.done ["hi"]), some (ScenePayload.done []), none] =
      ⟨3, 1, 0, [SceneWire.error "llm down", SceneWire.done, SceneWire.done]⟩ :=
  llm_failure_error_then_done_session_continues _ (fun _ => rfl) ["hi"] []
    "llm down" (by decide) rfl (by decide)

/-- Counterexample for C8: in the voice-interaction service,
`_synthesize_speech` has no fallback — a failing external synthesis call
on non-empty text propagates the error, so the caller does not receive
audio bytes. -/
theorem voice_tts_failure_propagates :
    voice_synthesize false (Except.error "network down") "hello" =
        Except.error "network down" ∧
    (voice_synthesize false (Except.error "network down") "hello").isOk = false := by
  constructor <;> rfl

/-- C8 (amended): the placeholder fallback holds in the scene-recognition
service: on non-empty text its synthesize always returns audio bytes,
substituting the deterministic placeholder whenever the external call
fails; in mock mode both services return the placeholder without
consulting the external engine.  The voice-interaction variant has no
such fallback outside mock mode. -/
theorem tts_placeholder_fallback_scene_and_mock :
    (∀ (engine : Except String (List Nat)) (text : String), pyStrip text ≠ "" →
        scene_synthesize true engine text =
            Except.ok (mock_tts_audio_bytes (some text)) ∧
          voice_synthesize true engine text =
            Except.ok (mock_tts_audio_bytes (some text))) ∧
    (∀ (text e : String), pyStrip text ≠ "" →
        scene_synthesize false (Except.error e) text =
          Except.ok (mock_tts_audio_bytes (some text))) ∧
    (∀ (engine : Except String (List Nat)) (text : String), pyStrip text ≠ "" →
        (scene_synthesize false engine text).isOk = true) := by
  refine ⟨?_, ?_, ?_⟩
  · intro engine text ht
    constructor <;> simp [scene_synthesize, voice_synthesize, ht]
  · intro text e ht
    simp [scene_synthesize, ht]
  · intro engine text ht
    cases engine <;> simp [scene_synthesize, ht, Except.isOk, Except.toBool]

/-- Witness for C8 (amended): concrete failing engine and text "hi". -/
theorem tts_placeholder_fallback_scene_and_mock_witness :
    (scene_synthesize true (Except.error "boom") "hi" =
        Except.ok (mock_tts_audio_bytes (some "hi")) ∧
      voice_synthesize true (Except.error "boom") "hi" =
        Except.ok (mock_tts_audio_bytes (some "hi"))) ∧
    scene_synthesize false (Except.error "boom") "hi" =
      Except.ok (mock_tts_audio_bytes (some "hi")) ∧
    (scene_synthesize false (Except.ok [1]) "hi").isOk = true :=
  ⟨tts_placeholder_fallback_scene_and_mock.1 _ "hi" (by decide),
   tts_placeholder_fallback_scene_and_mock.2.1 "hi" "boom" (by decide),
   tts_placeholder_fallback_scene_and_mock.2.2 (Except.ok [1]) "hi" (by decide)⟩

lemma chunkAudio_concat (audio : List Nat) : concatChunks (chunkAudio audio) = audio := by
  generalize hn : audio.length = n
  induction n using Nat.strong_induction_on generalizing audio with
  | _ n ih =>
    by_cases h : audio = []
    · subst h; rw [chunkAudio]; rfl
    · rw [chunkAudio, dif_neg h]
      have hpos : 0 < audio.length := List.length_pos.2 h
      have hd : (audio.drop sendChunkSize).length < n := by
        rw [List.length_drop]
        simp only [sendChunkSize]
        omega
      show audio.take sendChunkSize ++ concatChunks (chunkAudio (audio.drop sendChunkSize)) = audio
      rw [ih _ hd _ rfl]
      exact List.take_append_drop _ _

lemma chunkAudio_all_bounded (audio : List Nat) :
    (chunkAudio audio).all
        (fun c => !c.isEmpty && decide (c.length ≤ sendChunkSize)) = true := by
  generalize hn : audio.length = n
  induction n using Nat.strong_induction_on generalizing audio with
  | _ n ih =>
    by_cases h : audio = []
    · subst h; rw [chunkAudio]; rfl
    · rw [chunkAudio, dif_neg h]
      have hpos : 0 < audio.length := List.length_pos.2 h
      have hd : (audio.drop sendChunkSize).length < n := by
        rw [List.length_drop]
        simp only [sendChunkSize]
        omega
      rw [List.all_cons]
      rw [ih _ hd _ rfl]
      have h1 : (audio.take sendChunkSize).isEmpty = false := by
        cases audio with
        | nil => exact absurd rfl h
        | cons a l => rfl
      have h2 : (audio.take sendChunkSize).length ≤ sendChunkSize := by
        rw [List.length_take]
        omega
      simp [h1, h2]

lemma writesOf_pairTrace (cs : List (List Nat)) :
    writesOf (cs.bind fun c => [DriveAct.write c, DriveAct.yield]) = cs := by
  induction cs with
  | nil => rfl
  | cons c cs ih =>
      show writesOf ([DriveAct.write c, DriveAct.yield] ++
        (cs.bind fun c => [DriveAct.write c, DriveAct.yield])) = c :: cs
      simp only [writesOf, List.filterMap_append] at ih ⊢
      rw [ih]
      rfl

lemma noAdjacentWrites_pairTrace (cs : List (List Nat)) :
    noAdjacentWrites (cs.bind fun c => [DriveAct.write c, DriveAct.yield]) = true := by
  induction cs with
  | nil => rfl
  | cons c cs ih =>
      show noAdjacentWrites (DriveAct.write c :: DriveAct.yield ::
        (cs.bind fun c => [DriveAct.write c, DriveAct.yield])) = true
      cases hcs : cs.bind fun c => [DriveAct.write c, DriveAct.yield] with
      | nil => rfl
      | cons a rest =>
          rw [hcs] at ih
          cases a <;> simp [noAdjacentWrites] <;> simpa [noAdjacentWrites] using ih

/-- C9: the drive loop forwards an accepted payload as a sequence of
chunks each non-empty and of length at most 8192, in order and covering
the whole payload, with its trace placing a cooperative yield between
any two consecutive writes. -/
theorem chunked_forwarding_bounded_with_yields (audio : List Nat) :
    concatChunks (chunkAudio audio) = audio ∧
    (chunkAudio audio).all
        (fun c => !c.isEmpty && decide (c.length ≤ sendChunkSize)) = true ∧
    writesOf (driveTrace audio) = chunkAudio audio ∧
    noAdjacentWrites (driveTrace audio) = true :=
  ⟨chunkAudio_concat audio, chunkAudio_all_bounded audio,
   writesOf_pairTrace (chunkAudio audio), noAdjacentWrites_pairTrace (chunkAudio audio)⟩

lemma bind_pair_length {α : Type} (f : α → List Nat) (h : ∀ a, (f a).length = 2) :
    ∀ l : List α, (l.bind f).length = 2 * l.length := by
  intro l
  induction l with
  | nil => rfl
  | cons a l ih =>
      show (f a ++ l.bind f).length = 2 * (l.length + 1)
      rw [List.length_append, h, ih]
      omega

lemma wavFrames_length : wavFrames.length = 16000 := by
  have h := bind_pair_length (fun n => int16le (sineSample n)) (fun a => rfl)
    (List.range mockTotalSamples)
  rw [wavFrames, h, List.length_range]
  rfl

/-- C10: `mock_tts_audio_bytes` ignores its text argument and returns
the same non-empty byte string for every input: a WAV file whose header
declares one channel, 16-bit samples and a 16000 Hz rate, whose data
chunk holds 16000 bytes = 8000 samples (0.5 s), and whose PCM frames are
the little-endian encodings of the 440 Hz sine samples. -/
theorem mock_tts_deterministic_sine_wav :
    (∀ t1 t2 : Option String, mock_tts_audio_bytes t1 = mock_tts_audio_bytes t2) ∧
    mock_tts_audio_bytes none ≠ [] ∧
    (mock_tts_audio_bytes none).length = 44 + 2 * 8000 ∧
    (mock_tts_audio_bytes none).take 4 = [82, 73, 70, 70] ∧
    ((mock_tts_audio_bytes none).drop 8).take 4 = [87, 65, 86, 69] ∧
    ((mock_tts_audio_bytes none).drop 22).take 2 = le16 1 ∧
    ((mock_tts_audio_bytes none).drop 24).take 4 = le32 16000 ∧
    ((mock_tts_audio_bytes none).drop 34).take 2 = le16 16 ∧
    ((mock_tts_audio_bytes none).drop 40).take 4 = le32 (2 * 8000) ∧
    wavFrames = (List.range mockTotalSamples).bind fun n => int16le (sineSample n) := by
  have hlen : (mock_tts_audio_bytes none).length = 44 + 2 * 8000 := by
    show (wavHeader ++ wavFrames).length = 44 + 2 * 8000
    rw [List.length_append, wavFrames_length]
    rfl
  refine ⟨fun t1 t2 => rfl, ?_, hlen, rfl, rfl, rfl, rfl, rfl, rfl, rfl⟩
  intro h
  rw [h] at hlen
  simp at hlen

end ZhiYuAI
